import Mathlib

/-!
Shallow embedding of the EEPROM programmer (`src/28c256-rw.py`, `src/writer.py`):
the address/page validation layer, the page-store operations over an abstract
device memory, the hexdump renderer with `*` repeat compaction, the write-test
harness, and the upload/download transfer pipeline.

The device behind the serial link is modelled as a memory function
`Mem : Nat → Nat`; every page-store operation returns the list of calls it
issues to the underlying device link, so that "fails before touching the
device" is the statement that this list is empty.
-/

namespace EEPROM

/-- `EEPROM_Programmer.MAX_ADDRESS`: the maximum usable address. -/
def MAX_ADDRESS : Nat := 0x7FFF

/-- `EEPROM_Programmer.EEPROM_SIZE`: the number of bytes the EEPROM stores. -/
def EEPROM_SIZE : Nat := MAX_ADDRESS + 1

/-- `EEPROM_Programmer.WRITE_TEST_PATTERNS`: the eight 4-byte test patterns. -/
def WRITE_TEST_PATTERNS : List (List Nat) :=
  [ [ 0xA5, 0xA5, 0xA5, 0xA5 ],
    [ 0x00, 0xFA, 0xCA, 0xDE ],
    [ 0xC0, 0xFF, 0xEE, 0x00 ],
    [ 0xDE, 0xAD, 0xBE, 0xEF ],
    [ 0xBE, 0xEF, 0xDE, 0xAD ],
    [ 0xCA, 0xFE, 0xD0, 0x0D ],
    [ 0xBA, 0xAA, 0xAA, 0xAD ],
    [ 0x8B, 0xAD, 0xF0, 0x0D ] ]

/-- The device contents, one byte value per address. -/
abbrev Mem := Nat → Nat

/-- A call issued to the underlying device link (`self.arduino`), carrying the
address split `address & 0xFF, address >> 8` exactly as the source passes it. -/
inductive DevCall where
  | read (lo hi : Nat)
  | write (lo hi b : Nat)
  | readPage (lo hi : Nat)
  | writePage (lo hi : Nat) (data : List Nat)
  | sleepMs (ms : Nat)
deriving DecidableEq, Repr

/-- The `ValueError`s (and fatal exits) the Python source can raise. -/
inductive ProgError where
  | addressOutOfRange
  | byteOutOfRange
  | unalignedAddress
  | invalidPageLength
  | startNotLessThanStop
  | stopTooLarge
  | startNegative
  | invalidImageLength
  | verificationFailed (addr : Nat)
deriving DecidableEq, Repr

/-- The 64 bytes of the page at `a` as the device returns them. -/
def readPageData (mem : Mem) (a : Nat) : List Nat :=
  (List.range 64).map (fun i => mem (a + i))

/-- The device-side effect of `arduino.write_page`: store `data` into the 64
bytes starting at `a`. -/
def writePageData (mem : Mem) (a : Nat) (data : List Nat) : Mem :=
  fun x => if a ≤ x ∧ x < a + 64 then data.getD (x - a) 0 else mem x

/-- `EEPROM_Programmer._read`: single-byte read with address validation.
Returns the result together with the device-link calls issued. -/
def readByteOp (mem : Mem) (address : Int) : Except ProgError Nat × List DevCall :=
  if address > (MAX_ADDRESS : Int) ∨ address < 0 then
    (.error .addressOutOfRange, [])
  else
    (.ok (mem address.toNat), [.read (address.toNat % 256) (address.toNat / 256)])

/-- `EEPROM_Programmer._write`: single-byte write with address and byte
validation.  Returns the updated device memory and the calls issued. -/
def writeByteOp (mem : Mem) (address : Int) (byte : Int) :
    Except ProgError Unit × Mem × List DevCall :=
  if address > (MAX_ADDRESS : Int) ∨ address < 0 then
    (.error .addressOutOfRange, mem, [])
  else if byte > 0xFF ∨ byte < 0 then
    (.error .byteOutOfRange, mem, [])
  else
    (.ok (), fun x => if x = address.toNat then byte.toNat else mem x,
     [.write (address.toNat % 256) (address.toNat / 256) byte.toNat])

/-- `EEPROM_Programmer._read_page`: page read with address and 64-alignment
validation. -/
def readPageOp (mem : Mem) (address : Int) :
    Except ProgError (List Nat) × List DevCall :=
  if address > (MAX_ADDRESS : Int) ∨ address < 0 then
    (.error .addressOutOfRange, [])
  else if address % 64 ≠ 0 then
    (.error .unalignedAddress, [])
  else
    (.ok (readPageData mem address.toNat),
     [.readPage (address.toNat % 256) (address.toNat / 256)])

/-- `EEPROM_Programmer._write_page` (28c256-rw.py): page write with address,
alignment and data-length validation; after the device call it sleeps 0.01 s
(`time.sleep(0.01)`, recorded as `sleepMs 10`) before returning. -/
def writePageOp (mem : Mem) (address : Int) (data : List Nat) :
    Except ProgError Unit × Mem × List DevCall :=
  if address > (MAX_ADDRESS : Int) ∨ address < 0 then
    (.error .addressOutOfRange, mem, [])
  else if address % 64 ≠ 0 then
    (.error .unalignedAddress, mem, [])
  else if data.length ≠ 64 then
    (.error .invalidPageLength, mem, [])
  else
    (.ok (), writePageData mem address.toNat data,
     [.writePage (address.toNat % 256) (address.toNat / 256) data, .sleepMs 10])

/-- `EEPROM_Programmer._write_page` as it appears in `src/writer.py`: the same
validation, but the function returns directly after the device call, with no
settle sleep. -/
def writerWritePageOp (mem : Mem) (address : Int) (data : List Nat) :
    Except ProgError Unit × Mem × List DevCall :=
  if address > (MAX_ADDRESS : Int) ∨ address < 0 then
    (.error .addressOutOfRange, mem, [])
  else if address % 64 ≠ 0 then
    (.error .unalignedAddress, mem, [])
  else if data.length ≠ 64 then
    (.error .invalidPageLength, mem, [])
  else
    (.ok (), writePageData mem address.toNat data,
     [.writePage (address.toNat % 256) (address.toNat / 256) data])

/-- A device-facing request a caller can make of the page store. -/
inductive Op where
  | readByte (addr : Int)
  | writeByte (addr b : Int)
  | readPage (addr : Int)
  | writePage (addr : Int) (data : List Nat)

/-- Run one operation (28c256-rw.py semantics): the resulting device memory and
the calls issued to the link. -/
def runOp (mem : Mem) : Op → Mem × List DevCall
  | .readByte a => (mem, (readByteOp mem a).2)
  | .writeByte a b => ((writeByteOp mem a b).2.1, (writeByteOp mem a b).2.2)
  | .readPage a => (mem, (readPageOp mem a).2)
  | .writePage a d => ((writePageOp mem a d).2.1, (writePageOp mem a d).2.2)

/-- The full device-link trace of a sequential program (28c256-rw.py). -/
def runProg (mem : Mem) : List Op → List DevCall
  | [] => []
  | op :: rest => (runOp mem op).2 ++ runProg (runOp mem op).1 rest

/-- Run one operation with `src/writer.py`'s `_write_page` (no settle sleep). -/
def runOpW (mem : Mem) : Op → Mem × List DevCall
  | .readByte a => (mem, (readByteOp mem a).2)
  | .writeByte a b => ((writeByteOp mem a b).2.1, (writeByteOp mem a b).2.2)
  | .readPage a => (mem, (readPageOp mem a).2)
  | .writePage a d => ((writerWritePageOp mem a d).2.1, (writerWritePageOp mem a d).2.2)

/-- The full device-link trace of a sequential program under `writer.py`'s
page-write. -/
def runProgW (mem : Mem) : List Op → List DevCall
  | [] => []
  | op :: rest => (runOpW mem op).2 ++ runProgW (runOpW mem op).1 rest

/-! ## Transfer pipeline (`upload_file` / `download_file`) -/

/-- Python's `buf[i:i+n]`. -/
def slice (l : List Nat) (i n : Nat) : List Nat := (l.drop i).take n

/-- The page addresses `range(0, FILE_LEN, 64)` used by the transfer loops. -/
def uploadAddrs : List Nat := (List.range 512).map (fun p => p * 64)

/-- The write loop of `upload_file`: write each 64-byte chunk of `buf` in
address order via `_write_page` (all its validation passes on these inputs:
the addresses are 64-aligned and in range and the chunks have length 64). -/
def writeLoop (mem : Mem) (buf : List Nat) : List Nat → Mem × List DevCall
  | [] => (mem, [])
  | a :: rest =>
    let d := slice buf a 64
    let mem' := writePageData mem a d
    ((writeLoop mem' buf rest).1,
     [.writePage (a % 256) (a / 256) d, .sleepMs 10] ++ (writeLoop mem' buf rest).2)

/-- The verify loop of `upload_file`: re-read every chunk and compare against
`buf`, aborting at the first mismatching chunk. -/
def verifyLoop (mem : Mem) (buf : List Nat) : List Nat → Except ProgError Unit × List DevCall
  | [] => (.ok (), [])
  | a :: rest =>
    if readPageData mem a = slice buf a 64 then
      ((verifyLoop mem buf rest).1,
       .readPage (a % 256) (a / 256) :: (verifyLoop mem buf rest).2)
    else
      (.error (.verificationFailed a), [.readPage (a % 256) (a / 256)])

/-- `upload_file`: length check, then write all chunks, then verify them. -/
def upload_file (mem : Mem) (buf : List Nat) : Except ProgError Mem × List DevCall :=
  if buf.length ≠ EEPROM_SIZE then (.error .invalidImageLength, [])
  else
    let w := writeLoop mem buf uploadAddrs
    let v := verifyLoop w.1 buf uploadAddrs
    (match v.1 with
     | .ok _ => .ok w.1
     | .error e => .error e,
     w.2 ++ v.2)

/-- `download_file`: read all 512 pages in address order and concatenate them
into the 32768-byte image. -/
def download_file (mem : Mem) : List Nat :=
  uploadAddrs.flatMap (fun a => readPageData mem a)

/-! ## Write-test harness (`EEPROM_Programmer.write_test`) -/

/-- The 64-byte trial buffer:
`data[j] = WRITE_TEST_PATTERNS[i % len(WRITE_TEST_PATTERNS)][j % 4]`. -/
def write_test_data (i : Nat) : List Nat :=
  (List.range 64).map
    (fun j => (WRITE_TEST_PATTERNS.getD (i % WRITE_TEST_PATTERNS.length) []).getD (j % 4) 0)

/-- The device memory after trial `i`'s four page writes at
`0x00, 0x40, 0x80, 0xc0` (each being the valid-path effect of `_write_page`
with the trial buffer). -/
def write_test_mem (i : Nat) (mem : Mem) : Mem :=
  writePageData
    (writePageData
      (writePageData
        (writePageData mem 0x00 (write_test_data i))
        0x40 (write_test_data i))
      0x80 (write_test_data i))
    0xc0 (write_test_data i)

/-- The byte trial `i` expects back at offset `a`:
`WRITE_TEST_PATTERNS[i % len(WRITE_TEST_PATTERNS)][a % 4]`. -/
def write_test_expected (i a : Nat) : Nat :=
  (WRITE_TEST_PATTERNS.getD (i % WRITE_TEST_PATTERNS.length) []).getD (a % 4) 0

/-- The accumulated mismatch counter of `write_test`, fed with the observed
read-back data `obs trial offset`: for every trial `i < trial_count` and every
offset `a < 0x100`, `count` is incremented when `obs i a != expected`. -/
def write_test_mismatches (obs : Nat → Nat → Nat) (trial_count : Nat) : Nat :=
  (List.range trial_count).foldl
    (fun count i =>
      (List.range 0x100).foldl
        (fun c a => if obs i a ≠ write_test_expected i a then c + 1 else c)
        count)
    0

/-- The reported error rate: `percent = (count / total) * 100` with
`total = trial_count * 256`. -/
def write_test_percent (obs : Nat → Nat → Nat) (trial_count : Nat) : ℚ :=
  (write_test_mismatches obs trial_count : ℚ) / (trial_count * 256) * 100

/-- Per-trial mismatch count, as a closed-form count over the 256 offsets. -/
def trial_mismatches (obs : Nat → Nat → Nat) (i : Nat) : Nat :=
  (List.range 0x100).countP (fun a => obs i a ≠ write_test_expected i a)

/-- The bit-flip diagnostic loop: eight times, append `'1'` when
`flipped & 0x80` is nonzero, else `'0'`, then shift `flipped` left by one. -/
def flip_bits : Nat → Nat → List Char
  | 0, _ => []
  | n + 1, flipped =>
    (if flipped &&& 0x80 ≠ 0 then '1' else '0') :: flip_bits n (flipped <<< 1)

/-- The 8-character binary string printed in the mismatch diagnostic, built
from `flipped = got ^ expected`. -/
def flip_string (got expected : Nat) : String :=
  ⟨flip_bits 8 (got ^^^ expected)⟩

/-! ## Hexdump renderer (`EEPROM_Programmer.hexdump`)

The renderer is modelled as a pure function from a page-read function
(`_read_fn`), the `start`/`stop` range and the `hexdump_all` flag to the list
of printed items together with the list of page addresses read.  Python
strings are modelled as `List Char`; Python's `f'{byte:02x}'` formatting is
`hexByte`. -/

/-- One lowercase hex digit. -/
def hexDigit (n : Nat) : Char :=
  if n < 10 then Char.ofNat (48 + n) else Char.ofNat (87 + n)

/-- Python's `f'{byte:02x}'` for a byte value. -/
def hexByte (b : Nat) : String :=
  ⟨[hexDigit (b / 16 % 16), hexDigit (b % 16)]⟩

/-- `chr(c) if c >= 32 and c < 127 else '.'`. -/
def visChar (c : Nat) : Char :=
  if 32 ≤ c ∧ c < 127 then Char.ofNat c else '.'

/-- One printed item of a hexdump: a data line (shown address, the 16 hex
columns, the ASCII visualization), a `*`, or the final `stop` address line. -/
inductive DumpItem where
  | line (shown_addr : Nat) (hd : List String) (vis : List Char)
  | star
  | finalAddr (addr : Nat)
deriving DecidableEq, Repr

/-- The loop state of `hexdump`. -/
structure DumpState where
  prev_line_data : List Nat
  prev_line_partial : Bool
  within_star : Bool
  done : Bool
  out : List DumpItem
  reads : List Nat
deriving DecidableEq, Repr

/-- The state at the top of the page loop. -/
def initDumpState : DumpState :=
  { prev_line_data := [], prev_line_partial := false, within_star := false,
    done := false, out := [], reads := [] }

/-- The address printed on a line: shifted by `start % 16` when the line is
clipped at the start (`shown_addr = line_addr+start%0x10`). -/
def shownAddrOf (start line_addr : Nat) : Nat :=
  if start > line_addr then line_addr + start % 16 else line_addr

/-- The 16 hex columns of a line after boundary clipping: format each byte
with `f'{byte:02x}'`, then blank the columns before `start % 16` when the
line is clipped at the start, and the columns from `stop % 16` on when it is
clipped at the stop (`for k in range(0xf, stop%0x10-1, -1): hd[k] = "  "`). -/
def renderHd (start stop line_addr : Nat) (line_data : List Nat) : List String :=
  let hd0 := line_data.map hexByte
  let hd1 := if start > line_addr then
      hd0.mapIdx (fun k v => if k < start % 16 then "  " else v)
    else hd0
  if (stop : Int) - 16 < (line_addr : Int) then
    hd1.mapIdx (fun k v => if stop % 16 ≤ k then "  " else v)
  else hd1

/-- The ASCII visualization of a line after boundary clipping.  Python string
slicing is modelled on `List Char`: `s[k:]` is `drop k` and `s[:-n]` is
`take (s.length - n)`; the stop clip is `s[:-(0x10 - (stop%0x10-1))] + "|"`. -/
def renderVis (start stop line_addr : Nat) (line_data : List Nat) : List Char :=
  let vis0 : List Char := '|' :: (line_data.map visChar ++ ['|'])
  let vis1 := if start > line_addr then
      List.replicate (start % 16) ' ' ++ '|' :: vis0.drop (start % 16 + 1)
    else vis0
  if (stop : Int) - 16 < (line_addr : Int) then
    vis1.take (vis1.length - (17 - stop % 16)) ++ ['|']
  else vis1

/-- Whether the line is only partially displayed (clipped on either side). -/
def linePartial (start stop line_addr : Nat) : Bool :=
  decide (start > line_addr) || decide ((stop : Int) - 16 < (line_addr : Int))

/-- The body of the line loop for an in-range line (`first_line ≤ line_addr <
final_line`), given the 16 data bytes `line_data = data[line:line+0x10]`. -/
def lineStep (start stop : Nat) (hexdump_all : Bool) (line_addr : Nat)
    (line_data : List Nat) (st : DumpState) : DumpState :=
  -- "If we are within a '*' and the data matches, and this isnt the end of
  -- the dump: skip"
  if st.within_star = true ∧ line_data = st.prev_line_data ∧
      ¬((stop : Int) - 16 < (line_addr : Int)) then
    st
  else if st.prev_line_data = line_data ∧ st.prev_line_partial = false ∧
      linePartial start stop line_addr = false ∧ hexdump_all = false then
    -- "Begin a new '*'"
    { st with out := st.out ++ [.star], within_star := true,
              prev_line_data := line_data,
              prev_line_partial := linePartial start stop line_addr }
  else
    -- "Print as usual"
    { st with out := st.out ++ [.line (shownAddrOf start line_addr)
                (renderHd start stop line_addr line_data)
                (renderVis start stop line_addr line_data)],
              within_star := false,
              prev_line_data := line_data,
              prev_line_partial := linePartial start stop line_addr }

/-- One iteration of the line loop: the `continue`/`break` checks against
`first_line`/`final_line` (and the `done` break), then the line body. -/
def lineLoopStep (start stop first_line final_line : Nat) (hexdump_all : Bool)
    (page_addr : Nat) (data : List Nat) (s : DumpState) (line : Nat) : DumpState :=
  if s.done = true then s
  else if page_addr + line < first_line then s
  else if final_line ≤ page_addr + line then { s with done := true }
  else lineStep start stop hexdump_all (page_addr + line)
    ((data.drop line).take 16) s

/-- The line loop over the four lines of one page (`range(0, 0x40, 0x10)`). -/
def pageLines (start stop first_line final_line : Nat) (hexdump_all : Bool)
    (page_addr : Nat) (data : List Nat) (st : DumpState) : DumpState :=
  ([0, 16, 32, 48] : List Nat).foldl
    (lineLoopStep start stop first_line final_line hexdump_all page_addr data) st

/-- One iteration of the page loop: the `done` break, the `_read_fn` call, and
the line loop over the page. -/
def pageStep (readFn : Nat → List Nat) (start stop first_line final_line : Nat)
    (hexdump_all : Bool) (s : DumpState) (page_addr : Nat) : DumpState :=
  if s.done = true then s
  else
    pageLines start stop first_line final_line hexdump_all page_addr
      (readFn page_addr) { s with reads := s.reads ++ [page_addr] }

/-- The page loop (`range(first_page, final_page, 0x40)`): read each page with
`_read_fn`, then run the line loop; a set `done` flag exits the loop. -/
def hexdumpLoop (readFn : Nat → List Nat) (start stop first_line final_line : Nat)
    (hexdump_all : Bool) (pages : List Nat) (st : DumpState) : DumpState :=
  pages.foldl (pageStep readFn start stop first_line final_line hexdump_all) st

/-- Python's `range(a, b, 64)`. -/
def pageRange (a b : Nat) : List Nat :=
  (List.range ((b - a + 63) / 64)).map (fun i => a + 64 * i)

/-- `EEPROM_Programmer.hexdump`: validate the range, compute the 16-byte line
and 64-byte page bounds (`math.trunc`/`math.ceil` on non-negative values are
floor/ceiling division), run the loops, and append the final `stop` address
line.  Returns the printed items and the page addresses passed to `_read_fn`. -/
def hexdump (readFn : Nat → List Nat) (start stop : Int) (hexdump_all : Bool) :
    Except ProgError (List DumpItem × List Nat) :=
  if stop ≤ start then .error .startNotLessThanStop
  else if stop > (EEPROM_SIZE : Int) then .error .stopTooLarge
  else if start < 0 then .error .startNegative
  else
    let startN := start.toNat
    let stopN := stop.toNat
    let first_line := startN / 16 * 16
    let final_line := (stopN + 15) / 16 * 16
    let first_page := first_line / 64 * 64
    let final_page := (final_line + 63) / 64 * 64
    let st := hexdumpLoop readFn startN stopN first_line final_line hexdump_all
      (pageRange first_page final_page) initDumpState
    .ok (st.out ++ [.finalAddr stopN], st.reads)

/-! ## Helper lemmas -/

lemma getD_map_range {α : Type} (f : Nat → α) (n i : Nat) (d : α) (h : i < n) :
    ((List.range n).map f).getD i d = f i := by
  rw [List.getD_eq_getElem?_getD, List.getElem?_map, List.getElem?_range h]
  rfl

lemma length_flip_bits (n f : Nat) : (flip_bits n f).length = n := by
  induction n generalizing f with
  | zero => rfl
  | succ m ih => simp [flip_bits, ih]

lemma flip_bits_getD (n f k : Nat) (h : k < n) :
    (flip_bits n f).getD k ' ' =
      if (f <<< k) &&& 0x80 ≠ 0 then '1' else '0' := by
  induction n generalizing f k with
  | zero => omega
  | succ m ih =>
    cases k with
    | zero => simp [flip_bits]
    | succ j =>
      have hj : j < m := by omega
      show (flip_bits m (f <<< 1)).getD j ' ' = _
      rw [ih (f <<< 1) j hj, ← Nat.shiftLeft_add]
      norm_num [Nat.add_comm 1 j]

lemma and_0x80_ne_zero (x : Nat) : (x &&& 0x80 ≠ 0) ↔ x.testBit 7 = true := by
  have h : (0x80 : Nat) = 2 ^ 7 := by norm_num
  rw [h, Nat.and_two_pow]
  cases hx : x.testBit 7 <;> simp [hx]

/-! ## Claim theorems -/

/-- **C3.** For every address outside `[0, 0x7FFF]`, each device-facing
operation (single-byte read, single-byte write, page read, page write) fails
with the address-out-of-range error and issues zero calls to the device link;
likewise an unaligned page address fails both page operations, and
wrong-length page data fails the page write, all before any device access. -/
theorem c3_validation_before_device (mem : Mem) (address : Int) :
    (address > (MAX_ADDRESS : Int) ∨ address < 0 →
      readByteOp mem address = (.error .addressOutOfRange, []) ∧
      (∀ b, writeByteOp mem address b = (.error .addressOutOfRange, mem, [])) ∧
      readPageOp mem address = (.error .addressOutOfRange, []) ∧
      (∀ d, writePageOp mem address d = (.error .addressOutOfRange, mem, []))) ∧
    (0 ≤ address → address ≤ (MAX_ADDRESS : Int) → address % 64 ≠ 0 →
      readPageOp mem address = (.error .unalignedAddress, []) ∧
      (∀ d, writePageOp mem address d = (.error .unalignedAddress, mem, []))) ∧
    (0 ≤ address → address ≤ (MAX_ADDRESS : Int) → address % 64 = 0 →
      ∀ d : List Nat, d.length ≠ 64 →
        writePageOp mem address d = (.error .invalidPageLength, mem, [])) := by
  refine ⟨fun h => ?_, fun h0 h1 h2 => ?_, fun h0 h1 h2 d hd => ?_⟩
  · exact ⟨by rw [readByteOp, if_pos h],
      fun b => by rw [writeByteOp, if_pos h],
      by rw [readPageOp, if_pos h],
      fun d => by rw [writePageOp, if_pos h]⟩
  · have hn : ¬(address > (MAX_ADDRESS : Int) ∨ address < 0) := by omega
    exact ⟨by rw [readPageOp, if_neg hn, if_pos h2],
      fun d => by rw [writePageOp, if_neg hn, if_pos h2]⟩
  · have hn : ¬(address > (MAX_ADDRESS : Int) ∨ address < 0) := by omega
    have hn2 : ¬(address % 64 ≠ 0) := by omega
    rw [writePageOp, if_neg hn, if_neg hn2, if_pos hd]

theorem c3_validation_before_device_witness :
    readByteOp (fun _ => 0) 0x8000 = (.error .addressOutOfRange, []) ∧
    readPageOp (fun _ => 0) 0x30 = (.error .unalignedAddress, []) ∧
    writePageOp (fun _ => 0) 0x40 [1, 2, 3] =
      (.error .invalidPageLength, fun _ => 0, []) :=
  ⟨((c3_validation_before_device (fun _ => 0) 0x8000).1 (by norm_num [MAX_ADDRESS])).1,
   ((c3_validation_before_device (fun _ => 0) 0x30).2.1 (by norm_num)
      (by norm_num [MAX_ADDRESS]) (by decide)).1,
   (c3_validation_before_device (fun _ => 0) 0x40).2.2 (by norm_num)
      (by norm_num [MAX_ADDRESS]) (by decide) [1, 2, 3] (by norm_num)⟩

/-- **C5.** During trial `i`, the byte written to the device at offset
`j < 256` is `WRITE_TEST_PATTERNS[i mod 8][j mod 4]`; in particular trial
index 8 builds the same buffer as trial index 0. -/
theorem c5_write_test_patterns :
    (∀ (mem : Mem) (i j : Nat), j < 256 →
      write_test_mem i mem j = (WRITE_TEST_PATTERNS.getD (i % 8) []).getD (j % 4) 0) ∧
    write_test_data 8 = write_test_data 0 := by
  constructor
  · intro mem i j hj
    have hlen : WRITE_TEST_PATTERNS.length = 8 := by rfl
    have hdata : ∀ k, k < 64 →
        (write_test_data i).getD k 0 =
          (WRITE_TEST_PATTERNS.getD (i % 8) []).getD (k % 4) 0 := by
      intro k hk
      rw [write_test_data, getD_map_range _ 64 k 0 hk, hlen]
    unfold write_test_mem writePageData
    split_ifs with h1 h2 h3 h4
    · have hmod : (j - 0xc0) % 4 = j % 4 := by omega
      rw [hdata (j - 0xc0) (by omega), hmod]
    · have hmod : (j - 0x80) % 4 = j % 4 := by omega
      rw [hdata (j - 0x80) (by omega), hmod]
    · have hmod : (j - 0x40) % 4 = j % 4 := by omega
      rw [hdata (j - 0x40) (by omega), hmod]
    · have hmod : (j - 0x00) % 4 = j % 4 := by omega
      rw [hdata (j - 0x00) (by omega), hmod]
    · omega
  · decide

theorem c5_write_test_patterns_witness :
    write_test_mem 8 (fun _ => 0) 255 =
      (WRITE_TEST_PATTERNS.getD (8 % 8) []).getD (255 % 4) 0 :=
  c5_write_test_patterns.1 (fun _ => 0) 8 255 (by norm_num)

/-- **C6.** For differing expected/observed byte values, the write-test
diagnostic's binary string is the 8-character rendering of
`expected XOR observed`, most significant bit first; in particular expected
`0xA5` and observed `0x24` yield `"10000001"`. -/
theorem c6_bit_flip_diagnostic :
    flip_string 0x24 0xA5 = "10000001" ∧
    ∀ got expected : Nat, got < 256 → expected < 256 → got ≠ expected →
      (flip_bits 8 (got ^^^ expected)).length = 8 ∧
      ∀ k, k < 8 → (flip_bits 8 (got ^^^ expected)).getD k ' ' =
        (if (expected ^^^ got).testBit (7 - k) = true then '1' else '0') := by
  refine ⟨by decide, fun got expected _ _ _ => ⟨length_flip_bits 8 _, fun k hk => ?_⟩⟩
  rw [flip_bits_getD 8 _ k hk, Nat.xor_comm got expected]
  have h1 : ((expected ^^^ got) <<< k) &&& 0x80 ≠ 0 ↔
      ((expected ^^^ got) <<< k).testBit 7 = true := and_0x80_ne_zero _
  have h2 : ((expected ^^^ got) <<< k).testBit 7 =
      (decide (7 ≥ k) && (expected ^^^ got).testBit (7 - k)) :=
    Nat.testBit_shiftLeft _
  have hk7 : (decide (7 ≥ k)) = true := by simp only [decide_eq_true_eq]; omega
  rw [hk7, Bool.true_and] at h2
  by_cases hb : (expected ^^^ got).testBit (7 - k) = true
  · rw [if_pos (h1.mpr (by rw [h2]; exact hb)), if_pos hb]
  · rw [if_neg (fun hc => hb (by rw [← h2]; exact h1.mp hc)), if_neg hb]

theorem c6_bit_flip_diagnostic_witness :
    (flip_bits 8 (0x24 ^^^ 0xA5)).length = 8 ∧
    (flip_bits 8 (0x24 ^^^ 0xA5)).getD 0 ' ' =
      (if (0xA5 ^^^ 0x24).testBit 7 = true then '1' else '0') :=
  ⟨(c6_bit_flip_diagnostic.2 0x24 0xA5 (by norm_num) (by norm_num) (by norm_num)).1,
   (c6_bit_flip_diagnostic.2 0x24 0xA5 (by norm_num) (by norm_num) (by norm_num)).2
     0 (by norm_num)⟩

lemma foldl_if_count (l : List Nat) (p : Nat → Prop) [DecidablePred p] (n : Nat) :
    l.foldl (fun c a => if p a then c + 1 else c) n = n + l.countP (fun a => decide (p a)) := by
  induction l generalizing n with
  | nil => simp
  | cons a t ih =>
    rw [List.foldl_cons, ih, List.countP_cons]
    by_cases h : p a
    all_goals simp [h]
    all_goals omega

/-- **C7.** For every `trial_count` and every observed read-back data, the
write-test harness accumulates the mismatches of all `trial_count` trials (no
mismatch aborts it) and reports exactly
`total_mismatches / (trial_count * 256) * 100`. -/
theorem c7_write_test_completes :
    ∀ (obs : Nat → Nat → Nat) (trial_count : Nat),
      write_test_mismatches obs trial_count =
        ((List.range trial_count).map (trial_mismatches obs)).sum ∧
      write_test_percent obs trial_count =
        (((List.range trial_count).map (trial_mismatches obs)).sum : ℚ) /
          (trial_count * 256) * 100 := by
  have hfold : ∀ {g : Nat → Nat → Nat} (t : Nat → Nat),
      (∀ c i, g c i = c + t i) → ∀ (l : List Nat) (n : Nat),
      l.foldl g n = n + (l.map t).sum := by
    intro g t hg l
    induction l with
    | nil => simp
    | cons a tl ih =>
      intro n
      rw [List.foldl_cons, hg, ih, List.map_cons, List.sum_cons]
      omega
  have key : ∀ obs trial_count, write_test_mismatches obs trial_count =
      ((List.range trial_count).map (trial_mismatches obs)).sum := by
    intro obs tc
    rw [write_test_mismatches,
      hfold (trial_mismatches obs)
        (fun c i => by rw [foldl_if_count]; rfl) (List.range tc) 0,
      Nat.zero_add]
  exact fun obs tc => ⟨key obs tc, by rw [write_test_percent, key obs tc]⟩

/-- **C8.** `upload_file` on an image whose length is not exactly 32768 fails
with the invalid-image-length error and issues zero device calls; an image of
exactly 32768 bytes proceeds to the device writes (the first call issued is
the page write at address 0). -/
theorem c8_upload_length_check (mem : Mem) (buf : List Nat) :
    (buf.length ≠ 32768 →
      upload_file mem buf = (.error .invalidImageLength, [])) ∧
    (buf.length = 32768 →
      ∃ rest, (upload_file mem buf).2 =
        .writePage 0 0 (slice buf 0 64) :: .sleepMs 10 :: rest) := by
  constructor
  · intro h
    rw [upload_file, if_pos (by rw [EEPROM_SIZE, MAX_ADDRESS]; omega)]
  · intro h
    have hne : ¬(buf.length ≠ EEPROM_SIZE) := by rw [EEPROM_SIZE, MAX_ADDRESS]; omega
    have h0 : uploadAddrs = 0 :: ((List.range 511).map Nat.succ).map (fun p => p * 64) := by
      rw [uploadAddrs, List.range_succ_eq_map, List.map_cons]
    exact ⟨_, by rw [upload_file, if_neg hne, h0]; rfl⟩

theorem c8_upload_length_check_witness :
    upload_file (fun _ => 0) (List.replicate 32767 0) = (.error .invalidImageLength, []) :=
  (c8_upload_length_check (fun _ => 0) (List.replicate 32767 0)).1
    (by rw [List.length_replicate]; omega)

lemma runOp_trace_shape (mem : Mem) (op : Op) :
    (runOp mem op).2 = [] ∨
    (∃ c, (runOp mem op).2 = [c] ∧ ∀ lo hi data, c ≠ DevCall.writePage lo hi data) ∨
    (∃ lo hi data,
      (runOp mem op).2 = [DevCall.writePage lo hi data, DevCall.sleepMs 10]) := by
  cases op with
  | readByte a =>
    rw [runOp, readByteOp]
    split_ifs
    · exact Or.inl rfl
    · exact Or.inr (Or.inl ⟨_, rfl, fun _ _ _ h => DevCall.noConfusion h⟩)
  | writeByte a b =>
    rw [runOp, writeByteOp]
    split_ifs
    · exact Or.inl rfl
    · exact Or.inl rfl
    · exact Or.inr (Or.inl ⟨_, rfl, fun _ _ _ h => DevCall.noConfusion h⟩)
  | readPage a =>
    rw [runOp, readPageOp]
    split_ifs
    · exact Or.inl rfl
    · exact Or.inl rfl
    · exact Or.inr (Or.inl ⟨_, rfl, fun _ _ _ h => DevCall.noConfusion h⟩)
  | writePage a d =>
    rw [runOp, writePageOp]
    split_ifs
    · exact Or.inl rfl
    · exact Or.inl rfl
    · exact Or.inl rfl
    · exact Or.inr (Or.inr ⟨_, _, _, rfl⟩)

/-- **C9 (amended).** For the 28c256-rw.py page write: in the device-link
trace of any sequential program, every page-write call is immediately
followed by the 10 ms settle sleep, so no device operation is ever issued
inside the settle window following a page write.  (`src/writer.py`'s
`_write_page` issues no such sleep; see the counterexample.) -/
theorem c9_settle_after_page_write :
    ∀ (prog : List Op) (mem : Mem) (i lo hi : Nat) (data : List Nat),
      (runProg mem prog)[i]? = some (DevCall.writePage lo hi data) →
      (runProg mem prog)[i + 1]? = some (DevCall.sleepMs 10) := by
  intro prog
  induction prog with
  | nil =>
    intro mem i lo hi data h
    rw [runProg] at h
    simp at h
  | cons op rest ih =>
    intro mem i lo hi data h
    rw [runProg] at h ⊢
    rcases runOp_trace_shape mem op with h0 | ⟨c, hc, hne⟩ | ⟨lo', hi', data', hw⟩
    · rw [h0, List.nil_append] at h ⊢
      exact ih _ _ _ _ _ h
    · rw [hc, List.singleton_append] at h ⊢
      rcases i with _ | j
      · rw [List.getElem?_cons_zero, Option.some_inj] at h
        exact absurd h (hne lo hi data)
      · rw [List.getElem?_cons_succ] at h ⊢
        exact ih _ _ _ _ _ h
    · rw [hw] at h ⊢
      rcases i with _ | _ | j
      · simp
      · simp at h
      · rw [List.cons_append, List.cons_append, List.getElem?_cons_succ,
          List.getElem?_cons_succ, List.nil_append] at h ⊢
        exact ih _ _ _ _ _ h

theorem c9_settle_after_page_write_witness :
    (runProg (fun _ => 0) [Op.writePage 0 (List.replicate 64 0)])[1]? =
      some (DevCall.sleepMs 10) :=
  c9_settle_after_page_write [Op.writePage 0 (List.replicate 64 0)] (fun _ => 0)
    0 0 0 (List.replicate 64 0) (by decide)

/-- **C9 counterexample.** Under `src/writer.py`'s `_write_page` (which has no
settle sleep), a page write followed by a page read produces a trace in which
the very next device call after the page write is the read, with no 10 ms
sleep in between — contradicting the claim for that implementation. -/
theorem c9_settle_counterexample :
    (runProgW (fun _ => 0)
        [Op.writePage 0 (List.replicate 64 0), Op.readPage 0])[0]? =
      some (DevCall.writePage 0 0 (List.replicate 64 0)) ∧
    (runProgW (fun _ => 0)
        [Op.writePage 0 (List.replicate 64 0), Op.readPage 0])[1]? =
      some (DevCall.readPage 0 0) := by
  constructor
  · decide
  · decide

/-- The image produced by the first `n` page reads of `download_file`. -/
def downloadN (mem : Mem) (n : Nat) : List Nat :=
  ((List.range n).map (fun p => p * 64)).flatMap (fun a => readPageData mem a)

lemma length_readPageData (mem : Mem) (a : Nat) : (readPageData mem a).length = 64 := by
  rw [readPageData, List.length_map, List.length_range]

lemma downloadN_succ (mem : Mem) (n : Nat) :
    downloadN mem (n + 1) = downloadN mem n ++ readPageData mem (n * 64) := by
  rw [downloadN, List.range_succ, List.map_append, List.flatMap_append, downloadN]
  rw [List.map_singleton, List.flatMap_cons, List.flatMap_nil, List.append_nil]

lemma downloadN_length (mem : Mem) (n : Nat) : (downloadN mem n).length = n * 64 := by
  induction n with
  | zero => rfl
  | succ m ih =>
    rw [downloadN_succ, List.length_append, ih, length_readPageData]
    omega

lemma downloadN_decomp (mem : Mem) (n p : Nat) (h : p < n) :
    ∃ rest, downloadN mem n = downloadN mem p ++ (readPageData mem (p * 64) ++ rest) := by
  induction n with
  | zero => omega
  | succ m ih =>
    rcases Nat.lt_or_ge p m with hp | hp
    · obtain ⟨rest, hrest⟩ := ih hp
      exact ⟨rest ++ readPageData mem (m * 64),
        by rw [downloadN_succ, hrest, List.append_assoc, List.append_assoc]⟩
    · have hpm : p = m := by omega
      subst hpm
      exact ⟨[], by rw [downloadN_succ, List.append_nil]⟩

lemma downloadN_slice (mem : Mem) (n p : Nat) (h : p < n) :
    slice (downloadN mem n) (p * 64) 64 = readPageData mem (p * 64) := by
  obtain ⟨rest, hd⟩ := downloadN_decomp mem n p h
  rw [slice, hd, show p * 64 = (downloadN mem p).length from (downloadN_length mem p).symm,
    List.drop_left,
    show (64 : Nat) = (readPageData mem (downloadN mem p).length).length from
      (length_readPageData mem _).symm, List.take_left]

lemma writePageData_self (mem : Mem) (a : Nat) :
    writePageData mem a (readPageData mem a) = mem := by
  funext x
  rw [writePageData]
  split_ifs with h
  · rw [readPageData, getD_map_range _ 64 (x - a) 0 (by omega),
      show a + (x - a) = x from by omega]
  · rfl

lemma writeLoop_self (l : List Nat) (mem : Mem) (buf : List Nat)
    (h : ∀ a ∈ l, slice buf a 64 = readPageData mem a) :
    (writeLoop mem buf l).1 = mem := by
  induction l with
  | nil => rfl
  | cons a t ih =>
    rw [writeLoop]
    show (writeLoop (writePageData mem a (slice buf a 64)) buf t).1 = mem
    rw [h a (List.mem_cons_self a t), writePageData_self]
    exact ih (fun b hb => h b (List.mem_cons_of_mem a hb))

lemma verifyLoop_ok (l : List Nat) (mem : Mem) (buf : List Nat)
    (h : ∀ a ∈ l, readPageData mem a = slice buf a 64) :
    (verifyLoop mem buf l).1 = .ok () := by
  induction l with
  | nil => rfl
  | cons a t ih =>
    rw [verifyLoop, if_pos (h a (List.mem_cons_self a t))]
    exact ih (fun b hb => h b (List.mem_cons_of_mem a hb))

set_option maxRecDepth 4000 in
/-- **C4.** On a device whose contents do not change on their own (modelled as
the memory function behind the device link), `download_file` followed by
`upload_file` of the downloaded 32768-byte image succeeds: the verify pass
reports no failing chunk, and the device contents are unchanged. -/
theorem c4_download_upload_roundtrip (mem : Mem) :
    (upload_file mem (download_file mem)).1 = .ok mem := by
  have hbuf : download_file mem = downloadN mem 512 := rfl
  have hslice : ∀ a ∈ uploadAddrs, slice (download_file mem) a 64 = readPageData mem a := by
    intro a ha
    rw [uploadAddrs] at ha
    obtain ⟨p, hp, rfl⟩ := List.mem_map.mp ha
    rw [hbuf]
    exact downloadN_slice mem 512 p (List.mem_range.mp hp)
  have hlen : ¬((download_file mem).length ≠ EEPROM_SIZE) := by
    rw [hbuf, downloadN_length, EEPROM_SIZE, MAX_ADDRESS]
    omega
  have hw : (writeLoop mem (download_file mem) uploadAddrs).1 = mem :=
    writeLoop_self uploadAddrs mem (download_file mem) hslice
  have hv : (verifyLoop (writeLoop mem (download_file mem) uploadAddrs).1
      (download_file mem) uploadAddrs).1 = .ok () := by
    rw [hw]
    exact verifyLoop_ok uploadAddrs mem (download_file mem)
      (fun a ha => (hslice a ha).symm)
  rw [upload_file, if_neg hlen]
  show (match (verifyLoop (writeLoop mem (download_file mem) uploadAddrs).1
      (download_file mem) uploadAddrs).1 with
    | .ok _ => Except.ok (writeLoop mem (download_file mem) uploadAddrs).1
    | .error e => Except.error e) = Except.ok mem
  rw [hv, hw]

lemma foldl_cons_eq {α β : Type} {f : α → β → α} {s0 s1 s2 : α} {x : β} {l : List β}
    (h1 : f s0 x = s1) (h2 : List.foldl f s1 l = s2) :
    List.foldl f s0 (x :: l) = s2 := by
  rw [List.foldl_cons, h1, h2]

set_option maxHeartbeats 2000000 in
/-- **C2.** `hexdump(start=0x05, stop=0x1A)`: the first printed line shows
address `0x05` with hex columns and ASCII characters blanked for offsets
`0–4`, and the last printed line blanks hex columns and ASCII characters for
offsets `10–15` (the offsets `≥ stop mod 16`); this holds for every device
contents `mem`. -/
theorem c2_boundary_clipping (mem : Mem) :
    hexdump (readPageData mem) 5 0x1A false = .ok
      ([.line 5
          (["  ", "  ", "  ", "  ", "  "] ++
            (List.range 11).map (fun i => hexByte (mem (5 + i))))
          (List.replicate 5 ' ' ++
            '|' :: ((List.range 11).map (fun i => visChar (mem (5 + i))) ++ ['|'])),
        .line 16
          ((List.range 10).map (fun i => hexByte (mem (16 + i))) ++
            ["  ", "  ", "  ", "  ", "  ", "  "])
          ('|' :: ((List.range 10).map (fun i => visChar (mem (16 + i))) ++ ['|'])),
        .finalAddr 26], [0]) := by
  have key : lineStep 5 26 false 16 (((readPageData mem 0).drop 16).take 16)
      { prev_line_data := ((readPageData mem 0).drop 0).take 16,
        prev_line_partial := true, within_star := false, done := false,
        out := [.line 5 (renderHd 5 26 0 (((readPageData mem 0).drop 0).take 16))
          (renderVis 5 26 0 (((readPageData mem 0).drop 0).take 16))],
        reads := [0] } =
      { prev_line_data := ((readPageData mem 0).drop 16).take 16,
        prev_line_partial := true, within_star := false, done := false,
        out := [.line 5 (renderHd 5 26 0 (((readPageData mem 0).drop 0).take 16))
            (renderVis 5 26 0 (((readPageData mem 0).drop 0).take 16)),
          .line 16 (renderHd 5 26 16 (((readPageData mem 0).drop 16).take 16))
            (renderVis 5 26 16 (((readPageData mem 0).drop 16).take 16))],
        reads := [0] } := by
    unfold lineStep
    rw [if_neg (fun h => Bool.noConfusion h.1),
      if_neg (fun h => Bool.noConfusion h.2.1)]
    rfl
  have hpl : pageLines 5 26 0 32 false 0 (readPageData mem 0)
      { prev_line_data := [], prev_line_partial := false, within_star := false,
        done := false, out := [], reads := [0] } =
      { prev_line_data := ((readPageData mem 0).drop 16).take 16,
        prev_line_partial := true, within_star := false, done := true,
        out := [.line 5 (renderHd 5 26 0 (((readPageData mem 0).drop 0).take 16))
            (renderVis 5 26 0 (((readPageData mem 0).drop 0).take 16)),
          .line 16 (renderHd 5 26 16 (((readPageData mem 0).drop 16).take 16))
            (renderVis 5 26 16 (((readPageData mem 0).drop 16).take 16))],
        reads := [0] } := by
    unfold pageLines
    refine foldl_cons_eq rfl (foldl_cons_eq key (foldl_cons_eq rfl ?_))
    exact foldl_cons_eq rfl rfl
  calc hexdump (readPageData mem) 5 0x1A false
      = .ok ((pageLines 5 26 0 32 false 0 (readPageData mem 0)
            { prev_line_data := [], prev_line_partial := false, within_star := false,
              done := false, out := [], reads := [0] }).out ++ [DumpItem.finalAddr 26],
          (pageLines 5 26 0 32 false 0 (readPageData mem 0)
            { prev_line_data := [], prev_line_partial := false, within_star := false,
              done := false, out := [], reads := [0] }).reads) := rfl
    _ = _ := by
      rw [hpl]
      rfl

/-! ## Structural lemmas about the hexdump loops -/

lemma lineStep_done (start stop : Nat) (all : Bool) (la : Nat) (ld : List Nat)
    (st : DumpState) : (lineStep start stop all la ld st).done = st.done := by
  unfold lineStep
  split_ifs
  all_goals rfl

lemma lineStep_reads (start stop : Nat) (all : Bool) (la : Nat) (ld : List Nat)
    (st : DumpState) : (lineStep start stop all la ld st).reads = st.reads := by
  unfold lineStep
  split_ifs
  all_goals rfl

lemma lineStep_out (start stop : Nat) (all : Bool) (la : Nat) (ld : List Nat)
    (st : DumpState) : ∃ t, (lineStep start stop all la ld st).out = st.out ++ t := by
  unfold lineStep
  split_ifs
  · exact ⟨[], (List.append_nil _).symm⟩
  · exact ⟨_, rfl⟩
  · exact ⟨_, rfl⟩

lemma lineLoopStep_done_of_lt (start stop first_line final_line : Nat) (all : Bool)
    (page_addr : Nat) (data : List Nat) (s : DumpState) (line : Nat)
    (h : page_addr + line < final_line) :
    (lineLoopStep start stop first_line final_line all page_addr data s line).done =
      s.done := by
  unfold lineLoopStep
  split_ifs with h1 h2 h3
  · rfl
  · rfl
  · omega
  · exact lineStep_done _ _ _ _ _ _

lemma lineLoopStep_reads (start stop first_line final_line : Nat) (all : Bool)
    (page_addr : Nat) (data : List Nat) (s : DumpState) (line : Nat) :
    (lineLoopStep start stop first_line final_line all page_addr data s line).reads =
      s.reads := by
  unfold lineLoopStep
  split_ifs
  · rfl
  · rfl
  · rfl
  · exact lineStep_reads _ _ _ _ _ _

lemma lineLoopStep_out (start stop first_line final_line : Nat) (all : Bool)
    (page_addr : Nat) (data : List Nat) (s : DumpState) (line : Nat) :
    ∃ t, (lineLoopStep start stop first_line final_line all page_addr data s line).out =
      s.out ++ t := by
  unfold lineLoopStep
  split_ifs
  · exact ⟨[], (List.append_nil _).symm⟩
  · exact ⟨[], (List.append_nil _).symm⟩
  · exact ⟨[], (List.append_nil _).symm⟩
  · exact lineStep_out _ _ _ _ _ _

lemma pageLines_done_of_lt (start stop first_line final_line : Nat) (all : Bool)
    (page_addr : Nat) (data : List Nat) (st : DumpState)
    (h : page_addr + 48 < final_line) :
    (pageLines start stop first_line final_line all page_addr data st).done =
      st.done := by
  unfold pageLines
  rw [List.foldl_cons, List.foldl_cons, List.foldl_cons, List.foldl_cons,
    List.foldl_nil, lineLoopStep_done_of_lt _ _ _ _ _ _ _ _ _ (by omega),
    lineLoopStep_done_of_lt _ _ _ _ _ _ _ _ _ (by omega),
    lineLoopStep_done_of_lt _ _ _ _ _ _ _ _ _ (by omega),
    lineLoopStep_done_of_lt _ _ _ _ _ _ _ _ _ (by omega)]

lemma pageLines_reads (start stop first_line final_line : Nat) (all : Bool)
    (page_addr : Nat) (data : List Nat) (st : DumpState) :
    (pageLines start stop first_line final_line all page_addr data st).reads =
      st.reads := by
  unfold pageLines
  rw [List.foldl_cons, List.foldl_cons, List.foldl_cons, List.foldl_cons,
    List.foldl_nil, lineLoopStep_reads, lineLoopStep_reads, lineLoopStep_reads,
    lineLoopStep_reads]

lemma pageLines_out (start stop first_line final_line : Nat) (all : Bool)
    (page_addr : Nat) (data : List Nat) (st : DumpState) :
    ∃ t, (pageLines start stop first_line final_line all page_addr data st).out =
      st.out ++ t := by
  unfold pageLines
  rw [List.foldl_cons, List.foldl_cons, List.foldl_cons, List.foldl_cons,
    List.foldl_nil]
  obtain ⟨t1, h1⟩ := lineLoopStep_out start stop first_line final_line all
    page_addr data st 0
  obtain ⟨t2, h2⟩ := lineLoopStep_out start stop first_line final_line all
    page_addr data _ 16
  obtain ⟨t3, h3⟩ := lineLoopStep_out start stop first_line final_line all
    page_addr data _ 32
  obtain ⟨t4, h4⟩ := lineLoopStep_out start stop first_line final_line all
    page_addr data _ 48
  exact ⟨t1 ++ t2 ++ t3 ++ t4, by
    rw [h4, h3, h2, h1]
    simp [List.append_assoc]⟩

lemma pageStep_done_of_lt (readFn : Nat → List Nat)
    (start stop first_line final_line : Nat) (all : Bool) (s : DumpState)
    (page_addr : Nat) (h : page_addr + 48 < final_line) :
    (pageStep readFn start stop first_line final_line all s page_addr).done =
      s.done := by
  unfold pageStep
  split_ifs with h1
  · rfl
  · exact pageLines_done_of_lt _ _ _ _ _ _ _ _ h

lemma pageStep_out (readFn : Nat → List Nat)
    (start stop first_line final_line : Nat) (all : Bool) (s : DumpState)
    (page_addr : Nat) :
    ∃ t, (pageStep readFn start stop first_line final_line all s page_addr).out =
      s.out ++ t := by
  unfold pageStep
  split_ifs with h1
  · exact ⟨[], (List.append_nil _).symm⟩
  · exact pageLines_out _ _ _ _ _ _ _ _

lemma foldl_pageStep_out (readFn : Nat → List Nat)
    (start stop first_line final_line : Nat) (all : Bool) (ps : List Nat) :
    ∀ st : DumpState, ∃ t,
      (List.foldl (pageStep readFn start stop first_line final_line all) st ps).out =
        st.out ++ t := by
  induction ps with
  | nil => exact fun st => ⟨[], (List.append_nil _).symm⟩
  | cons p rest ih =>
    intro st
    rw [List.foldl_cons]
    obtain ⟨t1, h1⟩ := pageStep_out readFn start stop first_line final_line all st p
    obtain ⟨t2, h2⟩ := ih (pageStep readFn start stop first_line final_line all st p)
    exact ⟨t1 ++ t2, by rw [h2, h1, List.append_assoc]⟩

/-- The line body always prints (never skips, never emits `*`) on a line
clipped at the stop boundary. -/
lemma lineStep_final_print (start stop : Nat) (all : Bool) (la : Nat)
    (ld : List Nat) (st : DumpState) (h : stop < la + 16) :
    lineStep start stop all la ld st =
      { st with out := st.out ++ [.line (shownAddrOf start la)
                  (renderHd start stop la ld) (renderVis start stop la ld)],
                within_star := false, prev_line_data := ld,
                prev_line_partial := linePartial start stop la } := by
  have hint : (stop : Int) - 16 < (la : Int) := by omega
  have hlp : linePartial start stop la = true := by
    rw [linePartial, decide_eq_true hint, Bool.or_true]
  unfold lineStep
  rw [if_neg (fun hc => hc.2.2 hint),
    if_neg (fun hc => by rw [hlp] at hc; exact Bool.noConfusion hc.2.2.1)]

/-- The line-loop body prints the boundary line when it is in range. -/
lemma lineLoopStep_final_print (start stop first_line final_line : Nat)
    (all : Bool) (page_addr : Nat) (data : List Nat) (s : DumpState) (line : Nat)
    (hdone : s.done = false) (hfl : first_line ≤ page_addr + line)
    (hll : page_addr + line < final_line) (hstop : stop < page_addr + line + 16) :
    lineLoopStep start stop first_line final_line all page_addr data s line =
      { s with out := s.out ++ [.line (shownAddrOf start (page_addr + line))
                  (renderHd start stop (page_addr + line) ((data.drop line).take 16))
                  (renderVis start stop (page_addr + line) ((data.drop line).take 16))],
                within_star := false,
                prev_line_data := (data.drop line).take 16,
                prev_line_partial := linePartial start stop (page_addr + line) } := by
  unfold lineLoopStep
  rw [if_neg (by rw [hdone]; exact fun hc => Bool.noConfusion hc),
    if_neg (by omega), if_neg (by omega)]
  exact lineStep_final_print start stop all (page_addr + line)
    ((data.drop line).take 16) s hstop

/-- Running the line loop over the page containing the boundary line `L`
(from any not-yet-done state) prints the boundary line. -/
lemma pageLines_emits (start stop first_line final_line L P : Nat) (all : Bool)
    (data : List Nat) (st : DumpState) (hdone : st.done = false)
    (hP1 : P ≤ L) (hP2 : L < P + 64) (hL16 : L % 16 = 0) (hP64 : P % 64 = 0)
    (hfl : first_line ≤ L) (hLfl : L < final_line) (hstop : stop < L + 16) :
    ∃ hd vis, DumpItem.line (shownAddrOf start L) hd vis ∈
      (pageLines start stop first_line final_line all P data st).out := by
  have hmono : ∀ (s : DumpState) (o : Nat) (x : DumpItem), x ∈ s.out →
      x ∈ (lineLoopStep start stop first_line final_line all P data s o).out := by
    intro s o x hx
    obtain ⟨t, ht⟩ := lineLoopStep_out start stop first_line final_line all P data s o
    rw [ht]
    exact List.mem_append_left _ hx
  have hself : ∀ (s : DumpState) (o : Nat), s.done = false → P + o = L →
      DumpItem.line (shownAddrOf start L) (renderHd start stop L ((data.drop o).take 16))
        (renderVis start stop L ((data.drop o).take 16)) ∈
        (lineLoopStep start stop first_line final_line all P data s o).out := by
    intro s o hd ho
    rw [lineLoopStep_final_print start stop first_line final_line all P data s o hd
      (by omega) (by omega) (by omega), ho]
    exact List.mem_append_right _ (List.mem_cons_self _ _)
  unfold pageLines
  rw [List.foldl_cons, List.foldl_cons, List.foldl_cons, List.foldl_cons,
    List.foldl_nil]
  have ho : P + 0 = L ∨ P + 16 = L ∨ P + 32 = L ∨ P + 48 = L := by omega
  rcases ho with ho | ho | ho | ho
  · exact ⟨_, _, hmono _ 48 _ (hmono _ 32 _ (hmono _ 16 _ (hself st 0 hdone ho)))⟩
  · have hd1 : (lineLoopStep start stop first_line final_line all P data st 0).done
        = false := by
      rw [lineLoopStep_done_of_lt _ _ _ _ _ _ _ _ _ (by omega)]
      exact hdone
    exact ⟨_, _, hmono _ 48 _ (hmono _ 32 _ (hself _ 16 hd1 ho))⟩
  · have hd1 : (lineLoopStep start stop first_line final_line all P data st 0).done
        = false := by
      rw [lineLoopStep_done_of_lt _ _ _ _ _ _ _ _ _ (by omega)]
      exact hdone
    have hd2 : (lineLoopStep start stop first_line final_line all P data
        (lineLoopStep start stop first_line final_line all P data st 0) 16).done
        = false := by
      rw [lineLoopStep_done_of_lt _ _ _ _ _ _ _ _ _ (by omega)]
      exact hd1
    exact ⟨_, _, hmono _ 48 _ (hself _ 32 hd2 ho)⟩
  · have hd1 : (lineLoopStep start stop first_line final_line all P data st 0).done
        = false := by
      rw [lineLoopStep_done_of_lt _ _ _ _ _ _ _ _ _ (by omega)]
      exact hdone
    have hd2 : (lineLoopStep start stop first_line final_line all P data
        (lineLoopStep start stop first_line final_line all P data st 0) 16).done
        = false := by
      rw [lineLoopStep_done_of_lt _ _ _ _ _ _ _ _ _ (by omega)]
      exact hd1
    have hd3 : (lineLoopStep start stop first_line final_line all P data
        (lineLoopStep start stop first_line final_line all P data
          (lineLoopStep start stop first_line final_line all P data st 0) 16) 32).done
        = false := by
      rw [lineLoopStep_done_of_lt _ _ _ _ _ _ _ _ _ (by omega)]
      exact hd2
    exact ⟨_, _, hself _ 48 hd3 ho⟩

/-- The page loop prints the boundary line `L` as long as its page `P` is
among the pages still to be visited and the loop is not yet done. -/
lemma foldl_pageStep_emits (readFn : Nat → List Nat)
    (start stop first_line final_line L P : Nat) (all : Bool)
    (hP1 : P ≤ L) (hP2 : L < P + 64) (hL16 : L % 16 = 0) (hP64 : P % 64 = 0)
    (hfl : first_line ≤ L) (hLfl : L < final_line) (hstop : stop < L + 16)
    (hfl16 : final_line ≤ L + 16) :
    ∀ (ps : List Nat) (st : DumpState), st.done = false →
      List.Sorted (· < ·) ps → (∀ p ∈ ps, p % 64 = 0) → P ∈ ps →
      ∃ hd vis, DumpItem.line (shownAddrOf start L) hd vis ∈
        (List.foldl (pageStep readFn start stop first_line final_line all) st ps).out := by
  intro ps
  induction ps with
  | nil =>
    intro st _ _ _ hmem
    exact absurd hmem (List.not_mem_nil P)
  | cons p rest ih =>
    intro st hdone hsorted hdvd hmem
    rw [List.foldl_cons]
    by_cases hp : p = P
    · subst hp
      have hemit : ∃ hd vis, DumpItem.line (shownAddrOf start L) hd vis ∈
          (pageStep readFn start stop first_line final_line all st p).out := by
        unfold pageStep
        rw [if_neg (by rw [hdone]; exact fun hc => Bool.noConfusion hc)]
        exact pageLines_emits start stop first_line final_line L p all (readFn p)
          _ hdone hP1 hP2 hL16 hP64 hfl hLfl hstop
      obtain ⟨hd0, vis0, hmem0⟩ := hemit
      obtain ⟨t, ht⟩ := foldl_pageStep_out readFn start stop first_line final_line
        all rest (pageStep readFn start stop first_line final_line all st p)
      exact ⟨hd0, vis0, by rw [ht]; exact List.mem_append_left _ hmem0⟩
    · have hmemr : P ∈ rest := by
        rcases List.mem_cons.mp hmem with h | h
        · exact absurd h.symm hp
        · exact h
      have hlt : p < P := (List.sorted_cons.mp hsorted).1 P hmemr
      have hP64' : P % 64 = 0 := hP64
      have hp64 : p % 64 = 0 := hdvd p (List.mem_cons_self p rest)
      have h48 : p + 48 < final_line := by omega
      exact ih (pageStep readFn start stop first_line final_line all st p)
        (by rw [pageStep_done_of_lt _ _ _ _ _ _ _ _ h48]; exact hdone)
        (List.sorted_cons.mp hsorted).2
        (fun q hq => hdvd q (List.mem_cons_of_mem p hq)) hmemr

lemma pageRange_sorted (a b : Nat) : List.Sorted (· < ·) (pageRange a b) := by
  rw [pageRange]
  exact List.Pairwise.map _ (fun x y h => by omega) (List.pairwise_lt_range _)

lemma pageRange_mod (a b : Nat) (ha : a % 64 = 0) :
    ∀ p ∈ pageRange a b, p % 64 = 0 := by
  intro p hp
  rw [pageRange] at hp
  obtain ⟨i, _, rfl⟩ := List.mem_map.mp hp
  omega

lemma mem_pageRange (a b p : Nat) (ha : a % 64 = 0) (hb : b % 64 = 0)
    (hp : p % 64 = 0) (h1 : a ≤ p) (h2 : p < b) : p ∈ pageRange a b := by
  rw [pageRange]
  refine List.mem_map.mpr ⟨(p - a) / 64, List.mem_range.mpr (by omega), by omega⟩

lemma pageRange_nodup (a b : Nat) : (pageRange a b).Nodup := by
  rw [pageRange]
  exact List.Nodup.map (fun x y h => by omega) (List.nodup_range _)

/-- **C1 (amended).** For every dump range whose `stop` is not 16-aligned, the
line containing the last in-range byte (the 16-byte line starting at
`floor16(stop)`) is always printed, whatever data the page-read function
returns and whether or not repeat-suppression is enabled.  (For 16-aligned
`stop` the final full line can be suppressed inside a `*` run; see the
counterexample.) -/
theorem c1_final_line_printed (readFn : Nat → List Nat) (start stop : Nat)
    (all : Bool) (h1 : start < stop) (h2 : stop ≤ EEPROM_SIZE)
    (h3 : stop % 16 ≠ 0) :
    ∃ items reads sa hd vis,
      hexdump readFn (start : Int) (stop : Int) all = .ok (items, reads) ∧
      DumpItem.line sa hd vis ∈ items ∧
      stop / 16 * 16 ≤ sa ∧ sa < stop / 16 * 16 + 16 := by
  have hE : EEPROM_SIZE = 32768 := rfl
  rw [hE] at h2
  have hval1 : ¬((stop : Int) ≤ (start : Int)) := by omega
  have hval2 : ¬((stop : Int) > (EEPROM_SIZE : Int)) := by
    have : (EEPROM_SIZE : Int) = 32768 := by rw [hE]; norm_num
    omega
  have hval3 : ¬((start : Int) < 0) := by omega
  obtain ⟨hd, vis, hmem⟩ := foldl_pageStep_emits readFn start stop
    (start / 16 * 16) ((stop + 15) / 16 * 16) (stop / 16 * 16)
    ((stop / 16 * 16) / 64 * 64) all
    (by omega) (by omega) (by omega) (by omega) (by omega) (by omega)
    (by omega) (by omega)
    (pageRange ((start / 16 * 16) / 64 * 64)
      ((((stop + 15) / 16 * 16) + 63) / 64 * 64))
    initDumpState rfl (pageRange_sorted _ _) (pageRange_mod _ _ (by omega))
    (mem_pageRange _ _ _ (by omega) (by omega) (by omega) (by omega) (by omega))
  rw [hexdump, if_neg hval1, if_neg hval2, if_neg hval3]
  refine ⟨_, _, shownAddrOf start (stop / 16 * 16), hd, vis, rfl,
    List.mem_append_left _ hmem, ?_, ?_⟩
  · rw [shownAddrOf]
    split_ifs
    · omega
    · omega
  · rw [shownAddrOf]
    split_ifs
    · omega
    · omega

theorem c1_final_line_printed_witness :
    ∃ items reads sa hd vis,
      hexdump (fun _ => List.replicate 64 0) (0 : Int) (0x2A : Int) false =
        .ok (items, reads) ∧
      DumpItem.line sa hd vis ∈ items ∧
      0x2A / 16 * 16 ≤ sa ∧ sa < 0x2A / 16 * 16 + 16 :=
  c1_final_line_printed (fun _ => List.replicate 64 0) 0 0x2A false
    (by norm_num) (by rw [EEPROM_SIZE, MAX_ADDRESS]; norm_num) (by norm_num)

/-- Whether a printed item is a data line lying in the final 16-byte line of a
dump ending at `stop` (the line containing the byte at `stop - 1`). -/
def coversFinalLine (stop : Nat) : DumpItem → Bool
  | .line shown_addr _ _ =>
    decide ((stop + 15) / 16 * 16 - 16 ≤ shown_addr ∧
      shown_addr < (stop + 15) / 16 * 16)
  | _ => false

/-- **C1 counterexample.** `hexdump(start=0, stop=0x30)` on constant device
contents: the final in-range line (at `0x20`) has the same data as the
previously printed line, yet the dump output consists of exactly the line at
`0`, one `*`, and the final address line — no printed line covers the final
16-byte line, which was suppressed inside the `*` run (`stop` is 16-aligned
here, so the claim's "for every 16-aligned ... stop value" fails). -/
theorem c1_boundary_counterexample :
    (slice ((fun _ => List.replicate 64 0) 0) 0x20 16 =
      slice ((fun _ => List.replicate 64 0) 0) 0x10 16) ∧
    (hexdump (fun _ => List.replicate 64 0) 0 0x30 false).toOption.map
      (fun r => (r.1.countP (coversFinalLine 0x30),
        r.1.countP (fun i => i == DumpItem.star), r.1.length)) =
      some (0, 1, 3) := by
  constructor
  · rfl
  · decide

lemma pageStep_reads_cases (readFn : Nat → List Nat)
    (start stop first_line final_line : Nat) (all : Bool) (s : DumpState)
    (p : Nat) :
    (pageStep readFn start stop first_line final_line all s p).reads = s.reads ∨
    (pageStep readFn start stop first_line final_line all s p).reads =
      s.reads ++ [p] := by
  unfold pageStep
  split_ifs
  · exact Or.inl rfl
  · exact Or.inr (pageLines_reads _ _ _ _ _ _ _ _)

lemma foldl_pageStep_reads (readFn : Nat → List Nat)
    (start stop first_line final_line : Nat) (all : Bool) (ps : List Nat) :
    ∀ st : DumpState, ∃ l, l.Sublist ps ∧
      (List.foldl (pageStep readFn start stop first_line final_line all) st ps).reads =
        st.reads ++ l := by
  induction ps with
  | nil => exact fun st => ⟨[], List.nil_sublist [], (List.append_nil _).symm⟩
  | cons p rest ih =>
    intro st
    rw [List.foldl_cons]
    obtain ⟨l, hsub, hl⟩ :=
      ih (pageStep readFn start stop first_line final_line all st p)
    rcases pageStep_reads_cases readFn start stop first_line final_line all st p
      with hc | hc
    · exact ⟨l, hsub.cons p, by rw [hl, hc]⟩
    · exact ⟨p :: l, hsub.cons₂ p, by rw [hl, hc, List.append_assoc]; rfl⟩

/-- **C10.** For every valid dump range (`0 ≤ start < stop ≤ 32768`), every
address `hexdump` passes to its page-read function is 64-aligned and at most
`0x7FC0`, each such address is passed at most once per dump, and
`_read_page`'s validation succeeds on it (its error branches are unreachable
from `hexdump`). -/
theorem c10_page_reads_valid (readFn : Nat → List Nat) (start stop : Nat)
    (all : Bool) (h1 : start < stop) (h2 : stop ≤ EEPROM_SIZE) :
    ∃ items reads,
      hexdump readFn (start : Int) (stop : Int) all = .ok (items, reads) ∧
      reads.Nodup ∧
      ∀ a ∈ reads, a % 64 = 0 ∧ a ≤ 0x7FC0 ∧
        ∀ mem : Mem, (readPageOp mem (a : Int)).1 = .ok (readPageData mem a) := by
  have hE : EEPROM_SIZE = 32768 := rfl
  rw [hE] at h2
  have hval1 : ¬((stop : Int) ≤ (start : Int)) := by omega
  have hval2 : ¬((stop : Int) > (EEPROM_SIZE : Int)) := by
    have : (EEPROM_SIZE : Int) = 32768 := by rw [hE]; norm_num
    omega
  have hval3 : ¬((start : Int) < 0) := by omega
  rw [hexdump, if_neg hval1, if_neg hval2, if_neg hval3]
  obtain ⟨l, hsub, hl⟩ := foldl_pageStep_reads readFn start stop
    (start / 16 * 16) ((stop + 15) / 16 * 16) all
    (pageRange ((start / 16 * 16) / 64 * 64)
      ((((stop + 15) / 16 * 16) + 63) / 64 * 64)) initDumpState
  refine ⟨_, _, rfl, ?_, ?_⟩
  · show (List.foldl
        (pageStep readFn start stop (start / 16 * 16) ((stop + 15) / 16 * 16) all)
        initDumpState
        (pageRange ((start / 16 * 16) / 64 * 64)
          ((((stop + 15) / 16 * 16) + 63) / 64 * 64))).reads.Nodup
    rw [hl]
    exact hsub.nodup (pageRange_nodup _ _)
  · show ∀ a ∈ (List.foldl
        (pageStep readFn start stop (start / 16 * 16) ((stop + 15) / 16 * 16) all)
        initDumpState
        (pageRange ((start / 16 * 16) / 64 * 64)
          ((((stop + 15) / 16 * 16) + 63) / 64 * 64))).reads, _
    intro a ha
    rw [hl] at ha
    have ha' : a ∈ l := by
      rcases List.mem_append.mp ha with h | h
      · exact absurd h (List.not_mem_nil a)
      · exact h
    have hmemPR := hsub.subset ha'
    rw [pageRange] at hmemPR
    obtain ⟨i, hi, ha64⟩ := List.mem_map.mp hmemPR
    rw [List.mem_range] at hi
    have hfacts : a % 64 = 0 ∧ a ≤ 0x7FC0 := by omega
    refine ⟨hfacts.1, hfacts.2, fun mem => ?_⟩
    have hM : (MAX_ADDRESS : Int) = 32767 := by rw [MAX_ADDRESS]; norm_num
    rw [readPageOp, if_neg (by omega), if_neg (by omega)]
    rfl

theorem c10_page_reads_valid_witness :
    ∃ items reads,
      hexdump (fun _ => List.replicate 64 7) (0 : Int) (100 : Int) false =
        .ok (items, reads) ∧
      reads.Nodup ∧
      ∀ a ∈ reads, a % 64 = 0 ∧ a ≤ 0x7FC0 ∧
        ∀ mem : Mem, (readPageOp mem (a : Int)).1 = .ok (readPageData mem a) :=
  c10_page_reads_valid (fun _ => List.replicate 64 7) 0 100 false
    (by norm_num) (by rw [EEPROM_SIZE, MAX_ADDRESS]; norm_num)

end EEPROM
